import Mathlib

/-!
Shallow embedding of the mock trading engine (`models/TradingEngine.js`) of the
bitapi repository, together with proofs about the properties its specification
claims.

Modelling conventions:
* JavaScript numbers are modelled as exact rationals (`ℚ`); the arithmetic of
  the engine (margins, fees, PnL) is plain field arithmetic on them.
* The engine state is restricted to a single user: every claim under scrutiny
  is a per-user property, and the per-user bookkeeping in the source never
  reads another user's data.
* Generated UUIDs are modelled by a monotone counter `nextId`.
* Wall-clock fields (`createdTime`, `updatedTime`) carry no behaviour and are
  omitted.
* `async` functions in the source contain no interleaving that matters here:
  every mutation they perform happens synchronously before the first `await`
  of an external service, so they are modelled as plain state transformers.
-/

namespace BitApi

/-- Order / position direction (`side`). -/
inductive Side where
  | Buy
  | Sell
deriving DecidableEq

/-- Order type (`orderType`). -/
inductive OrderType where
  | Market
  | Limit
deriving DecidableEq

/-- Order status (`status`), `Market` orders are created `Filled`. -/
inductive OrderStatus where
  | New
  | Filled
  | Cancelled
deriving DecidableEq

/-- The user-facing errors thrown by the engine. -/
inductive TradeError where
  | userNotFound
  | leverageExceeded
  | insufficientBalance
  | orderNotFound
  | cannotCancelFilled
  | positionNotFound
  | closeExceedsSize
deriving DecidableEq

/-! Constructor disequalities, registered for `simp` so that branch conditions
on sides, order types and statuses reduce during concrete evaluation. -/

@[simp] theorem Side.buy_ne_sell : Side.Buy ≠ Side.Sell := by decide

@[simp] theorem Side.sell_ne_buy : Side.Sell ≠ Side.Buy := by decide

@[simp] theorem OrderType.market_ne_limit : OrderType.Market ≠ OrderType.Limit := by decide

@[simp] theorem OrderType.limit_ne_market : OrderType.Limit ≠ OrderType.Market := by decide

@[simp] theorem OrderStatus.new_ne_filled : OrderStatus.New ≠ OrderStatus.Filled := by decide

@[simp] theorem OrderStatus.filled_ne_new : OrderStatus.Filled ≠ OrderStatus.New := by decide

@[simp] theorem OrderStatus.new_ne_cancelled : OrderStatus.New ≠ OrderStatus.Cancelled := by decide

@[simp] theorem OrderStatus.cancelled_ne_new : OrderStatus.Cancelled ≠ OrderStatus.New := by decide

/-! Configuration constants (`config/index.js`, `trading` section, defaults). -/

/-- `config.trading.initialBalance` default. -/
def initialBalance : ℚ := 10000

/-- `config.trading.maxLeverage` default. -/
def maxLeverage : ℚ := 100

/-- `config.trading.liquidationThreshold` default. -/
def liquidationThreshold : ℚ := 8/10

/-- `config.trading.makerFee` default. -/
def makerFee : ℚ := 2/10000

/-- `config.trading.takerFee` default. -/
def takerFee : ℚ := 6/10000

/-- `config.trading.maintenanceMarginRate` (hard-coded 0.5%). -/
def maintenanceMarginRate : ℚ := 5/1000

/-- An open position (`position` objects in `TradingEngine`). -/
structure Position where
  positionId : Nat
  symbol : String
  side : Side
  qty : ℚ
  avgPrice : ℚ
  markPrice : ℚ
  leverage : ℚ
  unrealizedPnl : ℚ
  realizedPnl : ℚ
  marginUsed : ℚ
  maintenanceMargin : ℚ
  stopLoss : Option ℚ
  takeProfit : Option ℚ
deriving DecidableEq

/-- An order (`order` objects in `TradingEngine`). -/
structure Order where
  orderId : Nat
  symbol : String
  side : Side
  orderType : OrderType
  qty : ℚ
  price : ℚ
  leverage : ℚ
  stopLoss : Option ℚ
  takeProfit : Option ℚ
  reduceOnly : Bool
  status : OrderStatus
  filledQty : ℚ
  avgPrice : ℚ
  fee : ℚ
deriving DecidableEq

/-- A trade-history record (pushed by `executeOrder`). -/
structure Trade where
  orderId : Nat
  symbol : String
  side : Side
  price : ℚ
  qty : ℚ
  fee : ℚ
  realizedPnl : ℚ
deriving DecidableEq

/-- The per-user balance object (`user.balance`). -/
structure Balance where
  USDT : ℚ
  availableBalance : ℚ
  marginUsed : ℚ
  unrealizedPnl : ℚ
  realizedPnl : ℚ
  totalEquity : ℚ
deriving DecidableEq

/-- The engine state restricted to a single user: their balance, their open
positions (`this.positions.get(userId)`), their pending orders
(`this.orders.get(userId)`), their trade history, the engine's current price
and the id counter standing in for UUID generation. -/
structure EngineState where
  balance : Balance
  positions : List Position
  orders : List Order
  tradeHistory : List Trade
  currentPrice : ℚ
  nextId : Nat
deriving DecidableEq

/-- `initUser`: the fresh user state (the engine starts at price 50000). -/
def initialState : EngineState :=
  { balance := { USDT := initialBalance, availableBalance := initialBalance,
                 marginUsed := 0, unrealizedPnl := 0, realizedPnl := 0,
                 totalEquity := initialBalance },
    positions := [], orders := [], tradeHistory := [],
    currentPrice := 50000, nextId := 0 }

/-- The fee rate used for an order: taker for `Market`, maker otherwise. -/
def feeRate (t : OrderType) : ℚ :=
  if t = OrderType.Market then takerFee else makerFee

/-- `calculatePnl(position, exitPrice, qty)`.  The source computes
`const quantity = qty || position.qty`, so both an omitted quantity (`none`)
and a zero quantity fall back to the full position size. -/
def calculatePnl (position : Position) (exitPrice : ℚ) (qty : Option ℚ) : ℚ :=
  let quantity : ℚ :=
    match qty with
    | none => position.qty
    | some q => if q = 0 then position.qty else q
  if position.side = Side.Buy then (exitPrice - position.avgPrice) * quantity
  else (position.avgPrice - exitPrice) * quantity

/-- Replace the first position for symbol `BTCUSDT` (the source mutates the
object found by `userPositions.find(p => p.symbol === 'BTCUSDT')` in place). -/
def replaceBtc (ps : List Position) (p' : Position) : List Position :=
  match ps with
  | [] => []
  | p :: rest =>
      if p.symbol = "BTCUSDT" then p' :: rest else p :: replaceBtc rest p'

/-- Sum of `marginUsed` over a position list (the `forEach` accumulation in
`executeOrder`). -/
def sumMargin (ps : List Position) : ℚ := (ps.map Position.marginUsed).sum

/-- Sum of `unrealizedPnl` over a position list (the `forEach` accumulation in
`updateAllPositionsPnL`). -/
def sumUnrealized (ps : List Position) : ℚ := (ps.map Position.unrealizedPnl).sum

/-- The position-netting block of `executeOrder` (the `if (position) { ... }
else if (!order.reduceOnly) { ... }` chain).  Returns the updated state and
the value of the local variable `position` after the chain (`none` exactly
when a full close removed it or when a reduce-only order found nothing). -/
def nettingStep (st : EngineState) (o : Order) : EngineState × Option Position :=
  match st.positions.find? (fun p => p.symbol = "BTCUSDT") with
  | some position =>
      if position.side = o.side ∧ o.reduceOnly = false then
        -- same direction: add to the position by weighted average
        let totalQty := position.qty + o.qty
        let totalValue := position.qty * position.avgPrice + o.qty * o.price
        let p' := { position with qty := totalQty, avgPrice := totalValue / totalQty,
                                  leverage := o.leverage }
        ({ st with positions := replaceBtc st.positions p' }, some p')
      else if position.qty > o.qty then
        -- partial close
        let pnl := calculatePnl position o.price (some o.qty)
        let p' := { position with qty := position.qty - o.qty,
                                  realizedPnl := position.realizedPnl + pnl }
        ({ st with positions := replaceBtc st.positions p',
                   balance := { st.balance with
                                realizedPnl := st.balance.realizedPnl + pnl,
                                USDT := st.balance.USDT + pnl } }, some p')
      else if position.qty < o.qty ∧ o.reduceOnly = false then
        -- flip to the opposite side
        let pnl := calculatePnl position o.price (some position.qty)
        let p' := { position with side := o.side, qty := o.qty - position.qty,
                                  avgPrice := o.price, leverage := o.leverage,
                                  realizedPnl := 0, unrealizedPnl := 0 }
        ({ st with positions := replaceBtc st.positions p',
                   balance := { st.balance with
                                realizedPnl := st.balance.realizedPnl + pnl,
                                USDT := st.balance.USDT + pnl } }, some p')
      else
        -- full close
        let pnl := calculatePnl position o.price (some position.qty)
        ({ st with positions := st.positions.eraseP (fun p => p.symbol = "BTCUSDT"),
                   balance := { st.balance with
                                realizedPnl := st.balance.realizedPnl + pnl,
                                USDT := st.balance.USDT + pnl } }, none)
  | none =>
      if o.reduceOnly = false then
        -- open a fresh position
        let p' : Position :=
          { positionId := st.nextId, symbol := "BTCUSDT", side := o.side,
            qty := o.qty, avgPrice := o.price, markPrice := st.currentPrice,
            leverage := o.leverage, unrealizedPnl := 0, realizedPnl := 0,
            marginUsed := 0, maintenanceMargin := 0,
            stopLoss := o.stopLoss, takeProfit := o.takeProfit }
        ({ st with positions := st.positions ++ [p'], nextId := st.nextId + 1 }, some p')
      else
        (st, none)

/-- The fill stamp at the top of `executeOrder`: set the fee, the filled
quantity, the average price and the `Filled` status on the order. -/
def fillStamp (o0 : Order) : Order :=
  { o0 with fee := o0.qty * o0.price * feeRate o0.orderType,
            filledQty := o0.qty, avgPrice := o0.price,
            status := OrderStatus.Filled }

/-- The tail of `executeOrder`: debit the fee from cash and available balance
and append the trade-history record (whose `realizedPnl` the source hard-codes
to `0`). -/
def finishFill (st : EngineState) (o : Order) : EngineState :=
  { st with
    balance := { st.balance with
                   USDT := st.balance.USDT - o.fee,
                   availableBalance := st.balance.availableBalance - o.fee },
    tradeHistory := st.tradeHistory ++
      [{ orderId := o.orderId, symbol := o.symbol, side := o.side,
         price := o.price, qty := o.qty, fee := o.fee, realizedPnl := 0 }] }

/-- `executeOrder(order)`: stamp the order filled, net against the existing
position, recompute margins when a live position remains (the source guards
this block with `if (position)`), then debit the fee and record the trade.
Returns the resulting state, the filled order, and the final value of the
local `position` variable. -/
def executeOrderAux (st : EngineState) (o0 : Order) :
    EngineState × Order × Option Position :=
  let o := fillStamp o0
  let step := nettingStep st o
  match step.2 with
  | some p =>
      let newMargin := p.qty * p.avgPrice / p.leverage
      let p2 := { p with marginUsed := newMargin,
                         maintenanceMargin := newMargin * maintenanceMarginRate }
      let positions2 := replaceBtc step.1.positions p2
      let totalMarginUsed := sumMargin positions2
      let st2 := { step.1 with
                     positions := positions2,
                     balance := { step.1.balance with
                                    marginUsed := totalMarginUsed,
                                    availableBalance := step.1.balance.USDT - totalMarginUsed } }
      (finishFill st2 o, o, some p2)
  | none => (finishFill step.1 o, o, none)

/-- `executeOrder` restricted to its externally visible result. -/
def executeOrder (st : EngineState) (o : Order) : EngineState × Order :=
  ((executeOrderAux st o).1, (executeOrderAux st o).2.1)

/-- The argument record of `createOrder` (the source defaults `leverage` to
`config.trading.defaultLeverage` and `reduceOnly` to `false`; callers here
pass them explicitly). -/
structure OrderData where
  side : Side
  orderType : OrderType
  qty : ℚ
  price : ℚ
  leverage : ℚ
  stopLoss : Option ℚ
  takeProfit : Option ℚ
  reduceOnly : Bool
deriving DecidableEq

/-- The execution price chosen by `createOrder`: the current feed price for a
`Market` order, the submitted limit price otherwise. -/
def executionPrice (st : EngineState) (d : OrderData) : ℚ :=
  if d.orderType = OrderType.Market then st.currentPrice else d.price

/-- The order object built by `createOrder`. -/
def mkOrder (st : EngineState) (d : OrderData) : Order :=
  { orderId := st.nextId, symbol := "BTCUSDT", side := d.side,
    orderType := d.orderType, qty := d.qty, price := executionPrice st d,
    leverage := d.leverage, stopLoss := d.stopLoss, takeProfit := d.takeProfit,
    reduceOnly := d.reduceOnly,
    status := if d.orderType = OrderType.Market then OrderStatus.Filled
              else OrderStatus.New,
    filledQty := 0, avgPrice := 0, fee := 0 }

/-- `createOrder(userId, orderData)`: validate leverage, compute the execution
price, reject a non-reduce-only order whose required margin
(`qty*executionPrice/leverage`) plus fee (`qty*executionPrice*feeRate`)
exceeds the available balance, then either execute immediately (`Market`) or
append to the pending set (`Limit`). -/
def createOrder (st : EngineState) (d : OrderData) :
    Except TradeError (EngineState × Order) :=
  if d.leverage > maxLeverage then .error TradeError.leverageExceeded
  else if d.reduceOnly = false ∧
      st.balance.availableBalance <
        d.qty * executionPrice st d / d.leverage +
        d.qty * executionPrice st d * feeRate d.orderType then
    .error TradeError.insufficientBalance
  else if d.orderType = OrderType.Market then
    .ok ((executeOrderAux { st with nextId := st.nextId + 1 } (mkOrder st d)).1,
         (executeOrderAux { st with nextId := st.nextId + 1 } (mkOrder st d)).2.1)
  else
    .ok ({ st with nextId := st.nextId + 1, orders := st.orders ++ [mkOrder st d] },
         mkOrder st d)

/-- The close quantity of `closePosition`: the source's
`closeQty || position.qty` maps both an omitted and a zero quantity to the
full position size. -/
def qtyOrFull (closeQty : Option ℚ) (position : Position) : ℚ :=
  match closeQty with
  | none => position.qty
  | some q => if q = 0 then position.qty else q

/-- `closePosition(userId, positionId, closeQty)`: find the position, default
the close quantity to the full size, and submit a reduce-only opposite-side
`Market` order. -/
def closePosition (st : EngineState) (positionId : Nat) (closeQty : Option ℚ) :
    Except TradeError (EngineState × Order) :=
  match st.positions.find? (fun p => p.positionId = positionId) with
  | none => .error TradeError.positionNotFound
  | some position =>
      if qtyOrFull closeQty position > position.qty then
        .error TradeError.closeExceedsSize
      else
        createOrder st
          { side := if position.side = Side.Buy then Side.Sell else Side.Buy,
            orderType := OrderType.Market, qty := qtyOrFull closeQty position,
            price := 0, leverage := position.leverage, stopLoss := none,
            takeProfit := none, reduceOnly := true }

/-- The branch condition of `checkLiquidation`, with JavaScript division
semantics at a zero denominator: `m / 0` is `+Infinity` when `m > 0` (which
compares `>= threshold` as true for the finite threshold) and `-Infinity` or
`NaN` otherwise (for which the comparison is false). -/
def shouldLiquidate (maintenanceMargin equity : ℚ) : Bool :=
  if equity = 0 then decide (0 < maintenanceMargin)
  else decide (liquidationThreshold ≤ maintenanceMargin / equity)

/-- `checkLiquidation(userId, position)`: compute the maintenance-margin ratio
against `cashBalance + unrealizedPnl` and force-close the position through
`closePosition` when it reaches the threshold.  The source invokes this async
function without awaiting it, so an error inside becomes a swallowed rejected
promise: the state is then left unchanged. -/
def checkLiquidation (st : EngineState) (position : Position) : EngineState :=
  let equity := st.balance.USDT + position.unrealizedPnl
  if shouldLiquidate position.maintenanceMargin equity then
    match closePosition st position.positionId none with
    | .ok r => r.1
    | .error _ => st
  else st

/-! Auxiliary length facts, needed to justify termination of the price-tick
loop (the source loop runs over an array that liquidation can shrink). -/

theorem replaceBtc_length (ps : List Position) (p' : Position) :
    (replaceBtc ps p').length = ps.length := by
  induction ps with
  | nil => rfl
  | cons p rest ih =>
      by_cases h : p.symbol = "BTCUSDT" <;> simp [replaceBtc, h, ih]

theorem eraseP_length_le (ps : List Position) (f : Position → Bool) :
    (ps.eraseP f).length ≤ ps.length := by
  induction ps with
  | nil => simp [List.eraseP_nil]
  | cons p rest ih =>
      rw [List.eraseP_cons]
      cases hfp : f p with
      | true => simp
      | false => simpa using Nat.succ_le_succ ih

theorem nettingStep_length_le (st : EngineState) (o : Order)
    (h : o.reduceOnly = true) :
    (nettingStep st o).1.positions.length ≤ st.positions.length := by
  unfold nettingStep
  cases hf : st.positions.find? (fun p => p.symbol = "BTCUSDT") with
  | none => simp [h]
  | some position =>
      simp only [h, Bool.true_eq_false, and_false, if_false]
      by_cases h2 : position.qty > o.qty
      · rw [if_pos h2]
        simp [replaceBtc_length]
      · rw [if_neg h2]
        exact eraseP_length_le _ _

theorem executeOrderAux_positions_eq (st : EngineState) (o0 : Order) :
    (executeOrderAux st o0).1.positions.length
      = (nettingStep st (fillStamp o0)).1.positions.length := by
  simp only [executeOrderAux]
  cases hstep : (nettingStep st (fillStamp o0)).2 with
  | none => simp [hstep, finishFill]
  | some p => simp [hstep, finishFill, replaceBtc_length]

theorem executeOrderAux_length_le (st : EngineState) (o0 : Order)
    (h : o0.reduceOnly = true) :
    (executeOrderAux st o0).1.positions.length ≤ st.positions.length := by
  rw [executeOrderAux_positions_eq]
  exact nettingStep_length_le st (fillStamp o0) h

theorem createOrder_reduceOnly_length_le (st : EngineState) (d : OrderData)
    (h : d.reduceOnly = true) (r : EngineState × Order)
    (hr : createOrder st d = .ok r) :
    r.1.positions.length ≤ st.positions.length := by
  unfold createOrder at hr
  by_cases h1 : d.leverage > maxLeverage
  · rw [if_pos h1] at hr; cases hr
  · rw [if_neg h1] at hr
    rw [if_neg (by simp [h])] at hr
    by_cases h3 : d.orderType = OrderType.Market
    · rw [if_pos h3] at hr
      cases hr
      exact executeOrderAux_length_le _ _ (by simpa [mkOrder] using h)
    · rw [if_neg h3] at hr
      cases hr
      simp

theorem closePosition_length_le (st : EngineState) (pid : Nat) (q : Option ℚ)
    (r : EngineState × Order) (hr : closePosition st pid q = .ok r) :
    r.1.positions.length ≤ st.positions.length := by
  unfold closePosition at hr
  cases hf : st.positions.find? (fun p => p.positionId = pid) with
  | none => rw [hf] at hr; cases hr
  | some position =>
      rw [hf] at hr
      simp only at hr
      by_cases h2 : qtyOrFull q position > position.qty
      · rw [if_pos h2] at hr; cases hr
      · rw [if_neg h2] at hr
        exact createOrder_reduceOnly_length_le _ _ rfl _ hr

theorem checkLiquidation_length_le (st : EngineState) (p : Position) :
    (checkLiquidation st p).positions.length ≤ st.positions.length := by
  unfold checkLiquidation
  by_cases h : shouldLiquidate p.maintenanceMargin (st.balance.USDT + p.unrealizedPnl) = true
  · rw [if_pos h]
    cases hc : closePosition st p.positionId none with
    | ok r => exact closePosition_length_le st p.positionId none r hc
    | error e => simp
  · rw [if_neg h]

/-- Refresh a position's mark price and unrealized PnL at a price (the two
assignments at the top of the inner loop of `updateAllPositionsPnL`). -/
def markPos (price : ℚ) (p : Position) : Position :=
  { p with markPrice := price, unrealizedPnl := calculatePnl p price none }

/-- The `for (const position of userPositions)` loop of
`updateAllPositionsPnL`: the JavaScript array iterator keeps a cursor `i` that
is checked against the *current* array length, so a liquidation that splices
the array shifts later elements under the cursor. -/
def markAndCheckLoop (st : EngineState) (i : Nat) : EngineState :=
  if h : i < st.positions.length then
    markAndCheckLoop
      (checkLiquidation
        { st with positions := st.positions.set i (markPos st.currentPrice (st.positions.get ⟨i, h⟩)) }
        (markPos st.currentPrice (st.positions.get ⟨i, h⟩)))
      (i + 1)
  else st
termination_by st.positions.length - i
decreasing_by
  have hle := checkLiquidation_length_le
    { st with positions := st.positions.set i (markPos st.currentPrice (st.positions.get ⟨i, h⟩)) }
    (markPos st.currentPrice (st.positions.get ⟨i, h⟩))
  simp only [List.length_set] at hle
  omega

/-- `updateAllPositionsPnL` (single user): mark every position and run the
liquidation check, then recompute the balance's aggregate unrealized PnL and
`totalEquity`. -/
def updateAllPositionsPnL (st : EngineState) : EngineState :=
  let st1 := markAndCheckLoop st 0
  { st1 with balance := { st1.balance with
                            unrealizedPnl := sumUnrealized st1.positions,
                            totalEquity := st1.balance.USDT + sumUnrealized st1.positions } }

/-- The trigger condition for a pending limit order in `checkPendingOrders`. -/
def shouldFill (o : Order) (currentPrice : ℚ) : Bool :=
  decide ((o.side = Side.Buy ∧ currentPrice ≤ o.price) ∨
          (o.side = Side.Sell ∧ o.price ≤ currentPrice))

/-- The `for (const order of userOrders)` loop of `checkPendingOrders`.  As in
the source, a filled order is spliced out of the array *during* iteration, so
the cursor then skips over the element that slid into the vacated slot.
`executeOrder` never touches the pending array, so the splice acts on the
pre-fill array. -/
def checkPendingLoop (st : EngineState) (i : Nat) : EngineState :=
  if h : i < st.orders.length then
    let o := st.orders.get ⟨i, h⟩
    if o.status = OrderStatus.New ∧ shouldFill o st.currentPrice = true then
      checkPendingLoop { (executeOrderAux st o).1 with orders := st.orders.eraseIdx i } (i + 1)
    else
      checkPendingLoop st (i + 1)
  else st
termination_by st.orders.length - i
decreasing_by
  · have : (st.orders.eraseIdx i).length = st.orders.length - 1 := by
      rw [List.length_eraseIdx]
      simp [h]
    simp only [this]
    omega
  · omega

/-- `checkPendingOrders` (single user). -/
def checkPendingOrders (st : EngineState) : EngineState := checkPendingLoop st 0

/-- `updateCurrentPrice(price)`: set the reference price, mark all positions
(and liquidate), then scan the pending limit orders. -/
def updateCurrentPrice (st : EngineState) (price : ℚ) : EngineState :=
  checkPendingOrders (updateAllPositionsPnL { st with currentPrice := price })

/-- `cancelOrder(userId, orderId)`: find the order in the pending set
(`OrderNotFound` otherwise), refuse when its status is not `New`
(`CannotCancelFilled`), else mark it `Cancelled` and splice it out. -/
def cancelOrder (st : EngineState) (orderId : Nat) :
    Except TradeError (EngineState × Order) :=
  match st.orders.find? (fun o => o.orderId = orderId) with
  | none => .error TradeError.orderNotFound
  | some o =>
      if o.status ≠ OrderStatus.New then .error TradeError.cannotCancelFilled
      else
        .ok ({ st with orders := st.orders.eraseP (fun x => x.orderId = orderId) },
             { o with status := OrderStatus.Cancelled })

/-- `calculateWinRate(userId)`: `0` with an empty history, otherwise the share
of trades with positive realized PnL, scaled by 100. -/
def calculateWinRate (st : EngineState) : ℚ :=
  if st.tradeHistory.length = 0 then 0
  else ((st.tradeHistory.countP (fun t => decide (0 < t.realizedPnl)) : ℚ) /
        (st.tradeHistory.length : ℚ)) * 100

/-- Test-harness glue for running concrete traces: submit an order and keep
the prior state when the engine rejects it. -/
def stepOrder (st : EngineState) (d : OrderData) : EngineState :=
  match createOrder st d with
  | .ok r => r.1
  | .error _ => st

/-! Frame lemmas: the fill path never touches the pending-order array or the
reference price, so the liquidation pass inside a price tick leaves both
untouched. -/

theorem nettingStep_frame (st : EngineState) (o : Order) :
    (nettingStep st o).1.orders = st.orders ∧
    (nettingStep st o).1.currentPrice = st.currentPrice := by
  unfold nettingStep
  cases hf : st.positions.find? (fun p => p.symbol = "BTCUSDT") with
  | none =>
      by_cases h : o.reduceOnly = false
      · rw [if_pos h]; exact ⟨rfl, rfl⟩
      · rw [if_neg h]; exact ⟨rfl, rfl⟩
  | some p =>
      simp only
      by_cases h1 : p.side = o.side ∧ o.reduceOnly = false
      · rw [if_pos h1]; exact ⟨rfl, rfl⟩
      · rw [if_neg h1]
        by_cases h2 : p.qty > o.qty
        · rw [if_pos h2]; exact ⟨rfl, rfl⟩
        · rw [if_neg h2]
          by_cases h3 : p.qty < o.qty ∧ o.reduceOnly = false
          · rw [if_pos h3]; exact ⟨rfl, rfl⟩
          · rw [if_neg h3]; exact ⟨rfl, rfl⟩

theorem executeOrderAux_frame (st : EngineState) (o0 : Order) :
    (executeOrderAux st o0).1.orders = st.orders ∧
    (executeOrderAux st o0).1.currentPrice = st.currentPrice := by
  have hn := nettingStep_frame st (fillStamp o0)
  simp only [executeOrderAux]
  cases hstep : (nettingStep st (fillStamp o0)).2 with
  | none => simpa [finishFill] using hn
  | some p => simpa [finishFill] using hn

theorem createOrder_market_frame (st : EngineState) (d : OrderData)
    (hM : d.orderType = OrderType.Market) (r : EngineState × Order)
    (hr : createOrder st d = .ok r) :
    r.1.orders = st.orders ∧ r.1.currentPrice = st.currentPrice := by
  unfold createOrder at hr
  by_cases h1 : d.leverage > maxLeverage
  · rw [if_pos h1] at hr; cases hr
  · rw [if_neg h1] at hr
    by_cases h2 : d.reduceOnly = false ∧
        st.balance.availableBalance <
          d.qty * executionPrice st d / d.leverage +
          d.qty * executionPrice st d * feeRate d.orderType
    · rw [if_pos h2] at hr; cases hr
    · rw [if_neg h2, if_pos hM] at hr
      cases hr
      simpa using executeOrderAux_frame { st with nextId := st.nextId + 1 } (mkOrder st d)

theorem closePosition_frame (st : EngineState) (pid : Nat) (q : Option ℚ)
    (r : EngineState × Order) (hr : closePosition st pid q = .ok r) :
    r.1.orders = st.orders ∧ r.1.currentPrice = st.currentPrice := by
  unfold closePosition at hr
  cases hf : st.positions.find? (fun p => p.positionId = pid) with
  | none => rw [hf] at hr; cases hr
  | some position =>
      rw [hf] at hr
      simp only at hr
      by_cases h2 : qtyOrFull q position > position.qty
      · rw [if_pos h2] at hr; cases hr
      · rw [if_neg h2] at hr
        exact createOrder_market_frame _ _ rfl _ hr

theorem checkLiquidation_frame (st : EngineState) (p : Position) :
    (checkLiquidation st p).orders = st.orders ∧
    (checkLiquidation st p).currentPrice = st.currentPrice := by
  unfold checkLiquidation
  by_cases h : shouldLiquidate p.maintenanceMargin (st.balance.USDT + p.unrealizedPnl) = true
  · rw [if_pos h]
    cases hc : closePosition st p.positionId none with
    | ok r => exact closePosition_frame st p.positionId none r hc
    | error e => exact ⟨rfl, rfl⟩
  · rw [if_neg h]; exact ⟨rfl, rfl⟩

theorem markAndCheckLoop_frame (st : EngineState) (i : Nat) :
    (markAndCheckLoop st i).orders = st.orders ∧
    (markAndCheckLoop st i).currentPrice = st.currentPrice := by
  induction st, i using markAndCheckLoop.induct with
  | case1 st i h ih =>
      rw [markAndCheckLoop, dif_pos h]
      have hcl := checkLiquidation_frame
        { st with positions := st.positions.set i (markPos st.currentPrice (st.positions.get ⟨i, h⟩)) }
        (markPos st.currentPrice (st.positions.get ⟨i, h⟩))
      exact ⟨ih.1.trans hcl.1, ih.2.trans hcl.2⟩
  | case2 st i h =>
      rw [markAndCheckLoop, dif_neg h]
      exact ⟨rfl, rfl⟩

theorem updateAllPositionsPnL_frame (st : EngineState) :
    (updateAllPositionsPnL st).orders = st.orders ∧
    (updateAllPositionsPnL st).currentPrice = st.currentPrice := by
  simpa [updateAllPositionsPnL] using markAndCheckLoop_frame st 0

/-- After the mark/liquidation pass, `totalEquity` is by construction the cash
balance plus the aggregate unrealized PnL of the surviving positions. -/
theorem updateAllPositionsPnL_equity (st : EngineState) :
    (updateAllPositionsPnL st).balance.totalEquity
      = (updateAllPositionsPnL st).balance.USDT
        + sumUnrealized (updateAllPositionsPnL st).positions := by
  simp [updateAllPositionsPnL]

/-- A pending-order scan in which no order triggers leaves the state
untouched. -/
theorem checkPendingLoop_id (st : EngineState) (i : Nat)
    (h : ∀ o ∈ st.orders, ¬(o.status = OrderStatus.New ∧ shouldFill o st.currentPrice = true)) :
    checkPendingLoop st i = st := by
  induction st, i using checkPendingLoop.induct with
  | case1 st i hi o hcond ih =>
      exact absurd hcond (h o (by rw [hcond.1] at *; exact List.get_mem _ _ _))
  | case2 st i hi o hcond ih =>
      rw [checkPendingLoop, dif_pos hi]
      simp only [if_neg hcond]
      exact ih h
  | case3 st i hi =>
      rw [checkPendingLoop, dif_neg hi]

/-- The positions that come out of a fill, as a function of the netting
result: the live position gets its margins refreshed in place, a vanished
position leaves the netted list as is. -/
theorem executeOrderAux_positions (st : EngineState) (o0 : Order) :
    (executeOrderAux st o0).1.positions =
      (match (nettingStep st (fillStamp o0)).2 with
       | some p =>
           replaceBtc (nettingStep st (fillStamp o0)).1.positions
             { p with marginUsed := p.qty * p.avgPrice / p.leverage,
                      maintenanceMargin := p.qty * p.avgPrice / p.leverage * maintenanceMarginRate }
       | none => (nettingStep st (fillStamp o0)).1.positions) := by
  simp only [executeOrderAux]
  cases h : (nettingStep st (fillStamp o0)).2 with
  | none => simp [h, finishFill]
  | some p => simp [h, finishFill]

/-- Evaluation of the netting block for a reduce-only order whose quantity
equals the single open position's size: the full-close branch runs. -/
theorem nettingStep_reduce_close (st : EngineState) (p : Position) (o : Order)
    (hpos : st.positions = [p]) (hsym : p.symbol = "BTCUSDT")
    (hro : o.reduceOnly = true) (hqty : o.qty = p.qty) :
    nettingStep st o =
      ({ st with positions := [],
                 balance := { st.balance with
                                realizedPnl := st.balance.realizedPnl
                                  + calculatePnl p o.price (some p.qty),
                                USDT := st.balance.USDT
                                  + calculatePnl p o.price (some p.qty) } }, none) := by
  unfold nettingStep
  rw [hpos]
  have hfind : List.find? (fun q => q.symbol = "BTCUSDT") [p] = some p := by
    simp [hsym]
  rw [hfind]
  simp only
  rw [if_neg (by simp [hro])]
  rw [if_neg (by rw [hqty]; exact lt_irrefl _)]
  rw [if_neg (by simp [hro])]
  simp [List.eraseP_cons, hsym, hqty]

/-- When the liquidation condition fires on the lone open position, the
forced close path removes it. -/
theorem checkLiquidation_fires (st : EngineState) (p : Position)
    (hpos : st.positions = [p]) (hsym : p.symbol = "BTCUSDT")
    (hlev : p.leverage ≤ maxLeverage)
    (hsl : shouldLiquidate p.maintenanceMargin (st.balance.USDT + p.unrealizedPnl) = true) :
    (checkLiquidation st p).positions = [] := by
  unfold checkLiquidation
  rw [if_pos hsl]
  have hfind : st.positions.find? (fun q => q.positionId = p.positionId) = some p := by
    rw [hpos]; simp
  unfold closePosition
  rw [hfind]
  simp only
  rw [if_neg (by simp [qtyOrFull])]
  unfold createOrder
  simp only [mkOrder, executionPrice]
  rw [if_neg (not_lt.mpr hlev)]
  rw [if_neg (by simp)]
  simp only [if_true]
  rw [executeOrderAux_positions]
  rw [nettingStep_reduce_close _ p _ (by simpa using hpos) hsym (by simp [fillStamp]) (by simp [fillStamp, qtyOrFull])]

/-! ## Claim theorems -/

/-- C3: a position marked at the current price is force-closed by the
liquidation check if and only if
`maintenanceMargin / (cashBalance + unrealizedPnl) >= liquidationThreshold`,
and a position exactly at the threshold is liquidated (inclusive bound).
Stated for the single open position of the user with its admitted leverage;
the ratio requires a non-zero denominator. -/
theorem claim_C3_liquidation_iff_threshold (st : EngineState) (p : Position)
    (hpos : st.positions = [p]) (hsym : p.symbol = "BTCUSDT")
    (hlev : p.leverage ≤ maxLeverage)
    (he : st.balance.USDT + p.unrealizedPnl ≠ 0) :
    ((checkLiquidation st p).positions = [] ↔
      p.maintenanceMargin / (st.balance.USDT + p.unrealizedPnl) ≥ liquidationThreshold)
    ∧ (p.maintenanceMargin / (st.balance.USDT + p.unrealizedPnl) = liquidationThreshold →
        (checkLiquidation st p).positions = []) := by
  have hsl : shouldLiquidate p.maintenanceMargin (st.balance.USDT + p.unrealizedPnl) = true ↔
      liquidationThreshold ≤ p.maintenanceMargin / (st.balance.USDT + p.unrealizedPnl) := by
    simp [shouldLiquidate, he]
  constructor
  · by_cases hb : shouldLiquidate p.maintenanceMargin (st.balance.USDT + p.unrealizedPnl) = true
    · have h1 := checkLiquidation_fires st p hpos hsym hlev hb
      exact ⟨fun _ => hsl.mp hb, fun _ => h1⟩
    · have h2 : checkLiquidation st p = st := by
        unfold checkLiquidation
        rw [if_neg hb]
      constructor
      · intro hempty
        rw [h2, hpos] at hempty
        exact absurd hempty (by simp)
      · intro hge
        exact absurd (hsl.mpr hge) hb
  · intro heq
    exact checkLiquidation_fires st p hpos hsym hlev (hsl.mpr (le_of_eq heq.symm))

/-- Concrete position for the C3 witness: maintenance margin 2.5 against an
equity of 3, ratio 5/6 ≥ 0.8, so it liquidates. -/
def pC3 : Position :=
  { positionId := 1, symbol := "BTCUSDT", side := Side.Buy, qty := 1,
    avgPrice := 50000, markPrice := 40003, leverage := 100,
    unrealizedPnl := -9997, realizedPnl := 0, marginUsed := 500,
    maintenanceMargin := 5/2, stopLoss := none, takeProfit := none }

/-- Concrete state for the C3 witness. -/
def stC3 : EngineState :=
  { balance := { USDT := 10000, availableBalance := 9500, marginUsed := 500,
                 unrealizedPnl := -9997, realizedPnl := 0, totalEquity := 3 },
    positions := [pC3], orders := [], tradeHistory := [],
    currentPrice := 40003, nextId := 2 }

theorem claim_C3_witness :
    ((checkLiquidation stC3 pC3).positions = [] ↔
      pC3.maintenanceMargin / (stC3.balance.USDT + pC3.unrealizedPnl) ≥ liquidationThreshold)
    ∧ (pC3.maintenanceMargin / (stC3.balance.USDT + pC3.unrealizedPnl) = liquidationThreshold →
        (checkLiquidation stC3 pC3).positions = []) :=
  claim_C3_liquidation_iff_threshold stC3 pC3 rfl rfl
    (by norm_num [pC3, maxLeverage]) (by norm_num [stC3, pC3])

/-- C10: a position with positive maintenance margin whose losses push
`cashBalance + unrealizedPnl` strictly below zero is never liquidated: the
ratio is computed against negative equity and falls below the positive
threshold, so the check leaves the state untouched. -/
theorem claim_C10_negative_equity_never_liquidated (st : EngineState) (p : Position)
    (hm : 0 < p.maintenanceMargin) (he : st.balance.USDT + p.unrealizedPnl < 0) :
    checkLiquidation st p = st := by
  have he0 : st.balance.USDT + p.unrealizedPnl ≠ 0 := ne_of_lt he
  have hlt : p.maintenanceMargin / (st.balance.USDT + p.unrealizedPnl) < liquidationThreshold := by
    have hneg : p.maintenanceMargin / (st.balance.USDT + p.unrealizedPnl) < 0 :=
      div_neg_of_pos_of_neg hm he
    have hth : (0:ℚ) < liquidationThreshold := by norm_num [liquidationThreshold]
    linarith
  unfold checkLiquidation shouldLiquidate
  simp only
  rw [if_neg he0, if_neg (by simpa using not_le.mpr hlt)]

/-- Concrete position for the C10 witness: losses of 20000 against a cash
balance of 10000. -/
def pC10 : Position :=
  { positionId := 1, symbol := "BTCUSDT", side := Side.Buy, qty := 1,
    avgPrice := 50000, markPrice := 30000, leverage := 100,
    unrealizedPnl := -20000, realizedPnl := 0, marginUsed := 500,
    maintenanceMargin := 5/2, stopLoss := none, takeProfit := none }

/-- Concrete state for the C10 witness. -/
def stC10 : EngineState :=
  { balance := { USDT := 10000, availableBalance := 9500, marginUsed := 500,
                 unrealizedPnl := -20000, realizedPnl := 0, totalEquity := -10000 },
    positions := [pC10], orders := [], tradeHistory := [],
    currentPrice := 30000, nextId := 2 }

theorem claim_C10_witness :
    0 < pC10.maintenanceMargin ∧ stC10.balance.USDT + pC10.unrealizedPnl < 0 ∧
      checkLiquidation stC10 pC10 = stC10 :=
  ⟨by norm_num [pC10], by norm_num [stC10, pC10],
   claim_C10_negative_equity_never_liquidated stC10 pC10
     (by norm_num [pC10]) (by norm_num [stC10, pC10])⟩

/-- C9: executing a reduce-only `Market` order while no position for the
instrument is open leaves the position list untouched, still debits the taker
fee from both the cash and the available balance, and appends a trade record
to the history. -/
theorem claim_C9_reduce_only_without_position (st : EngineState) (o : Order)
    (hfind : st.positions.find? (fun p => p.symbol = "BTCUSDT") = none)
    (hro : o.reduceOnly = true) (hM : o.orderType = OrderType.Market) :
    (executeOrder st o).1.positions = st.positions ∧
    (executeOrder st o).1.balance.USDT = st.balance.USDT - o.qty * o.price * takerFee ∧
    (executeOrder st o).1.balance.availableBalance
      = st.balance.availableBalance - o.qty * o.price * takerFee ∧
    (executeOrder st o).1.tradeHistory
      = st.tradeHistory ++
          [{ orderId := o.orderId, symbol := o.symbol, side := o.side,
             price := o.price, qty := o.qty,
             fee := o.qty * o.price * takerFee, realizedPnl := 0 }] := by
  have hn : nettingStep st (fillStamp o) = (st, none) := by
    unfold nettingStep
    rw [hfind]
    simp only
    rw [if_neg (by simp [fillStamp, hro])]
  simp only [executeOrder, executeOrderAux, hn]
  simp [finishFill, fillStamp, feeRate, hM]

/-- Concrete reduce-only Market order for the C9 witness. -/
def oC9 : Order :=
  { orderId := 7, symbol := "BTCUSDT", side := Side.Sell,
    orderType := OrderType.Market, qty := 1/2, price := 50000, leverage := 100,
    stopLoss := none, takeProfit := none, reduceOnly := true,
    status := OrderStatus.Filled, filledQty := 0, avgPrice := 0, fee := 0 }

theorem claim_C9_witness :
    (executeOrder initialState oC9).1.positions = initialState.positions ∧
    (executeOrder initialState oC9).1.balance.USDT
      = initialState.balance.USDT - oC9.qty * oC9.price * takerFee ∧
    (executeOrder initialState oC9).1.balance.availableBalance
      = initialState.balance.availableBalance - oC9.qty * oC9.price * takerFee ∧
    (executeOrder initialState oC9).1.tradeHistory
      = initialState.tradeHistory ++
          [{ orderId := oC9.orderId, symbol := oC9.symbol, side := oC9.side,
             price := oC9.price, qty := oC9.qty,
             fee := oC9.qty * oC9.price * takerFee, realizedPnl := 0 }] :=
  claim_C9_reduce_only_without_position initialState oC9
    (by simp [initialState]) rfl rfl

/-- C7: a non-reduce-only fill on the side of the existing position merges by
weighted average: the quantities add and the new average price is
`(qty*avgPrice + orderQty*orderPrice) / (qty + orderQty)`. -/
theorem claim_C7_weighted_average_merge (st : EngineState) (p : Position) (o : Order)
    (hpos : st.positions = [p]) (hsym : p.symbol = "BTCUSDT")
    (hside : p.side = o.side) (hro : o.reduceOnly = false) :
    ∃ p', (executeOrder st o).1.positions = [p'] ∧
      p'.qty = p.qty + o.qty ∧
      p'.avgPrice = (p.qty * p.avgPrice + o.qty * o.price) / (p.qty + o.qty) ∧
      p'.side = p.side := by
  have hfind : List.find? (fun q => q.symbol = "BTCUSDT") [p] = some p := by
    simp [hsym]
  have hmerge : nettingStep st (fillStamp o) =
      ({ st with positions :=
           [{ p with qty := p.qty + o.qty,
                     avgPrice := (p.qty * p.avgPrice + o.qty * o.price) / (p.qty + o.qty),
                     leverage := o.leverage }] },
       some { p with qty := p.qty + o.qty,
                     avgPrice := (p.qty * p.avgPrice + o.qty * o.price) / (p.qty + o.qty),
                     leverage := o.leverage }) := by
    unfold nettingStep
    rw [hpos, hfind]
    simp only [fillStamp]
    rw [if_pos ⟨hside, hro⟩]
    simp [replaceBtc, hsym]
  refine ⟨{ p with
              qty := p.qty + o.qty,
              avgPrice := (p.qty * p.avgPrice + o.qty * o.price) / (p.qty + o.qty),
              leverage := o.leverage,
              marginUsed := (p.qty + o.qty)
                * ((p.qty * p.avgPrice + o.qty * o.price) / (p.qty + o.qty)) / o.leverage,
              maintenanceMargin := (p.qty + o.qty)
                * ((p.qty * p.avgPrice + o.qty * o.price) / (p.qty + o.qty)) / o.leverage
                * maintenanceMarginRate },
         ?_, rfl, rfl, rfl⟩
  simp only [executeOrder]
  rw [executeOrderAux_positions, hmerge]
  simp [replaceBtc, hsym]

/-- Concrete state for the C7 witness: the spec scenario after the first
Market buy (qty 1 at 50000) and a price tick to 52000. -/
def stC7 : EngineState :=
  { balance := { USDT := 9970, availableBalance := 9440, marginUsed := 500,
                 unrealizedPnl := 2000, realizedPnl := 0, totalEquity := 11970 },
    positions := [{ positionId := 0, symbol := "BTCUSDT", side := Side.Buy,
                    qty := 1, avgPrice := 50000, markPrice := 52000,
                    leverage := 100, unrealizedPnl := 2000, realizedPnl := 0,
                    marginUsed := 500, maintenanceMargin := 5/2,
                    stopLoss := none, takeProfit := none }],
    orders := [], tradeHistory := [], currentPrice := 52000, nextId := 1 }

/-- The second Market buy of the spec scenario: qty 1 at 52000. -/
def oC7 : Order :=
  { orderId := 1, symbol := "BTCUSDT", side := Side.Buy,
    orderType := OrderType.Market, qty := 1, price := 52000, leverage := 100,
    stopLoss := none, takeProfit := none, reduceOnly := false,
    status := OrderStatus.Filled, filledQty := 0, avgPrice := 0, fee := 0 }

theorem claim_C7_witness :
    (∃ p', (executeOrder stC7 oC7).1.positions = [p'] ∧
      p'.qty = (1 : ℚ) + 1 ∧
      p'.avgPrice = ((1 : ℚ) * 50000 + 1 * 52000) / (1 + 1) ∧
      p'.side = Side.Buy) ∧ ((1 : ℚ) + 1 = 2 ∧ ((1 : ℚ) * 50000 + 1 * 52000) / (1 + 1) = 51000) :=
  ⟨claim_C7_weighted_average_merge stC7
      { positionId := 0, symbol := "BTCUSDT", side := Side.Buy, qty := 1,
        avgPrice := 50000, markPrice := 52000, leverage := 100,
        unrealizedPnl := 2000, realizedPnl := 0, marginUsed := 500,
        maintenanceMargin := 5/2, stopLoss := none, takeProfit := none }
      oC7 rfl rfl rfl rfl,
   by norm_num⟩

/-- C1 (amended): after a fill that leaves a live position (open, merge,
partial close, or flip) the aggregate `marginUsed` equals the sum of
`marginUsed` over the user's open positions and
`availableBalance = cashBalance - marginUsed`, the fee having been debited
from the cash balance.  (The claim's full-close case is refuted separately:
the source only refreshes these aggregates under `if (position)`.) -/
theorem claim_C1_margin_refresh_live_position (st : EngineState) (o : Order)
    (h : (executeOrderAux st o).2.2.isSome = true) :
    (executeOrderAux st o).1.balance.marginUsed
      = sumMargin (executeOrderAux st o).1.positions ∧
    (executeOrderAux st o).1.balance.availableBalance
      = (executeOrderAux st o).1.balance.USDT
        - (executeOrderAux st o).1.balance.marginUsed := by
  cases hstep : (nettingStep st (fillStamp o)).2 with
  | none =>
      exfalso
      simp only [executeOrderAux, hstep] at h
      simp at h
  | some q =>
      simp only [executeOrderAux, hstep]
      constructor
      · simp [finishFill]
      · simp [finishFill]
        ring

/-- A plain opening Market Buy used by the C1 witness. -/
def oC1 : Order :=
  { orderId := 0, symbol := "BTCUSDT", side := Side.Buy,
    orderType := OrderType.Market, qty := 1/100, price := 50000, leverage := 100,
    stopLoss := none, takeProfit := none, reduceOnly := false,
    status := OrderStatus.Filled, filledQty := 0, avgPrice := 0, fee := 0 }

theorem claim_C1_witness :
    (executeOrderAux initialState oC1).1.balance.marginUsed
      = sumMargin (executeOrderAux initialState oC1).1.positions ∧
    (executeOrderAux initialState oC1).1.balance.availableBalance
      = (executeOrderAux initialState oC1).1.balance.USDT
        - (executeOrderAux initialState oC1).1.balance.marginUsed :=
  claim_C1_margin_refresh_live_position initialState oC1
    (by simp [executeOrderAux, nettingStep, initialState, fillStamp, oC1])

/-- The opening Market Buy of the C1 counterexample trace. -/
def dC1buy : OrderData :=
  { side := Side.Buy, orderType := OrderType.Market, qty := 1/100, price := 0,
    leverage := 100, stopLoss := none, takeProfit := none, reduceOnly := false }

/-- The full-closing Market Sell of the C1 counterexample trace. -/
def dC1sell : OrderData :=
  { side := Side.Sell, orderType := OrderType.Market, qty := 1/100, price := 0,
    leverage := 100, stopLoss := none, takeProfit := none, reduceOnly := false }

/-- The state after the opening buy of the C1 counterexample trace: position
qty 0.01 at 50000, margin 5, fee 0.3 debited. -/
def stC1a : EngineState :=
  { balance := { USDT := 99997/10, availableBalance := 99947/10, marginUsed := 5,
                 unrealizedPnl := 0, realizedPnl := 0, totalEquity := 10000 },
    positions := [{ positionId := 1, symbol := "BTCUSDT", side := Side.Buy,
                    qty := 1/100, avgPrice := 50000, markPrice := 50000,
                    leverage := 100, unrealizedPnl := 0, realizedPnl := 0,
                    marginUsed := 5, maintenanceMargin := 1/40,
                    stopLoss := none, takeProfit := none }],
    orders := [],
    tradeHistory := [{ orderId := 0, symbol := "BTCUSDT", side := Side.Buy,
                       price := 50000, qty := 1/100, fee := 3/10, realizedPnl := 0 }],
    currentPrice := 50000, nextId := 2 }

theorem stC1a_eval : stepOrder initialState dC1buy = stC1a := by
  norm_num [stepOrder, createOrder, executeOrderAux, nettingStep, finishFill,
    fillStamp, mkOrder, executionPrice, initialState, initialBalance, feeRate,
    takerFee, makerFee, maxLeverage, maintenanceMarginRate, sumMargin,
    replaceBtc, calculatePnl, dC1buy, stC1a]

/-- The state after fully closing the position again: the positions list is
empty, but `marginUsed` still reads 5 and only the fee left the balances. -/
def stC1b : EngineState :=
  { balance := { USDT := 49997/5, availableBalance := 49972/5, marginUsed := 5,
                 unrealizedPnl := 0, realizedPnl := 0, totalEquity := 10000 },
    positions := [],
    orders := [],
    tradeHistory := [{ orderId := 0, symbol := "BTCUSDT", side := Side.Buy,
                       price := 50000, qty := 1/100, fee := 3/10, realizedPnl := 0 },
                     { orderId := 2, symbol := "BTCUSDT", side := Side.Sell,
                       price := 50000, qty := 1/100, fee := 3/10, realizedPnl := 0 }],
    currentPrice := 50000, nextId := 3 }

theorem stC1b_eval : stepOrder stC1a dC1sell = stC1b := by
  norm_num [stepOrder, createOrder, executeOrderAux, nettingStep, finishFill,
    fillStamp, mkOrder, executionPrice, stC1a, feeRate,
    takerFee, makerFee, maxLeverage, maintenanceMarginRate, sumMargin,
    replaceBtc, calculatePnl, dC1sell, stC1b, List.eraseP_cons]

/-- C1 counterexample: run a Market Buy of qty 0.01 at 50000 and then a
Market Sell of the same quantity — a fill that fully closes the position.
Afterwards the aggregate `marginUsed` still carries the closed position's
margin (5) while the sum over the (now empty) open positions is 0: the
claimed post-fill equality fails on a full close. -/
theorem claim_C1_counterexample :
    stepOrder (stepOrder initialState dC1buy) dC1sell = stC1b ∧
    stC1b.positions = [] ∧ stC1b.balance.marginUsed = 5 ∧
      ¬(stC1b.balance.marginUsed = sumMargin stC1b.positions ∧
        stC1b.balance.availableBalance = stC1b.balance.USDT - stC1b.balance.marginUsed) := by
  refine ⟨by rw [stC1a_eval, stC1b_eval], rfl, rfl, ?_⟩
  norm_num [stC1b, sumMargin]

/-- After erasing the first order with a given id from a list whose ids are
distinct, no order with that id remains. -/
theorem eraseP_orderId_not_mem (l : List Order) (oid : Nat)
    (h : (l.map Order.orderId).Nodup) :
    ∀ x ∈ l.eraseP (fun o => o.orderId = oid), x.orderId ≠ oid := by
  induction l with
  | nil => simp [List.eraseP_nil]
  | cons a t ih =>
      simp only [List.map_cons, List.nodup_cons] at h
      by_cases pa : a.orderId = oid
      · rw [List.eraseP_cons_of_pos (by simpa using pa)]
        intro x hx hxe
        exact h.1 (by rw [pa, ← hxe]; exact List.mem_map_of_mem _ hx)
      · rw [List.eraseP_cons_of_neg (by simpa using pa)]
        intro x hx
        rcases List.mem_cons.mp hx with hxa | hxt
        · exact fun hxe => pa (hxa ▸ hxe)
        · exact ih h.2 x hxt

/-- C5: `cancelOrder` on an id absent from the user's pending set fails with
`OrderNotFound`; on a found order whose status is not `New` it fails with
`CannotCancelFilled`; a successful cancel returns the order with status
`Cancelled` and removes it from the pending set (no order with that id
remains when ids are distinct). -/
theorem claim_C5_cancel_order_semantics (st : EngineState) (oid : Nat) :
    (st.orders.find? (fun o => o.orderId = oid) = none →
        cancelOrder st oid = .error TradeError.orderNotFound)
    ∧ (∀ o, st.orders.find? (fun o => o.orderId = oid) = some o →
        o.status ≠ OrderStatus.New →
        cancelOrder st oid = .error TradeError.cannotCancelFilled)
    ∧ (∀ o, st.orders.find? (fun o => o.orderId = oid) = some o →
        o.status = OrderStatus.New →
        (st.orders.map Order.orderId).Nodup →
        cancelOrder st oid =
          .ok ({ st with orders := st.orders.eraseP (fun x => x.orderId = oid) },
               { o with status := OrderStatus.Cancelled })
        ∧ ∀ x ∈ st.orders.eraseP (fun x => x.orderId = oid), x.orderId ≠ oid) := by
  refine ⟨?_, ?_, ?_⟩
  · intro h
    unfold cancelOrder
    rw [h]
  · intro o h hs
    unfold cancelOrder
    rw [h]
    simp only
    rw [if_pos hs]
  · intro o h hs hnd
    constructor
    · unfold cancelOrder
      rw [h]
      simp only
      rw [if_neg (by simp [hs])]
    · exact eraseP_orderId_not_mem st.orders oid hnd

/-- A pending `New` limit order with id 10, for the C5 witness. -/
def oC5new : Order :=
  { orderId := 10, symbol := "BTCUSDT", side := Side.Buy,
    orderType := OrderType.Limit, qty := 1, price := 49000, leverage := 10,
    stopLoss := none, takeProfit := none, reduceOnly := false,
    status := OrderStatus.New, filledQty := 0, avgPrice := 0, fee := 0 }

/-- An already `Filled` order with id 11, for the C5 witness. -/
def oC5filled : Order :=
  { orderId := 11, symbol := "BTCUSDT", side := Side.Sell,
    orderType := OrderType.Limit, qty := 2, price := 51000, leverage := 10,
    stopLoss := none, takeProfit := none, reduceOnly := false,
    status := OrderStatus.Filled, filledQty := 2, avgPrice := 51000, fee := 0 }

/-- Pending set for the C5 witness: both orders above. -/
def stC5 : EngineState := { initialState with orders := [oC5new, oC5filled] }

theorem claim_C5_witness :
    cancelOrder stC5 99 = .error TradeError.orderNotFound ∧
    cancelOrder stC5 11 = .error TradeError.cannotCancelFilled ∧
    (cancelOrder stC5 10 =
        .ok ({ stC5 with orders := stC5.orders.eraseP (fun x => x.orderId = 10) },
             { oC5new with status := OrderStatus.Cancelled })
      ∧ ∀ x ∈ stC5.orders.eraseP (fun x => x.orderId = 10), x.orderId ≠ 10) := by
  refine ⟨?_, ?_, ?_⟩
  · exact (claim_C5_cancel_order_semantics stC5 99).1
      (by simp [stC5, oC5new, oC5filled])
  · exact (claim_C5_cancel_order_semantics stC5 11).2.1 oC5filled
      (by simp [stC5, oC5new, oC5filled, List.find?]) (by simp [oC5filled])
  · exact (claim_C5_cancel_order_semantics stC5 10).2.2 oC5new
      (by simp [stC5, oC5new, List.find?]) rfl
      (by simp [stC5, oC5new, oC5filled])

/-- C6 (amended): `calculateWinRate` returns the winning share of the trade
history expressed as a percentage — `100 * wins / total` — and `0` when the
history is empty.  (The claim's un-scaled `wins / total` is refuted by the
counterexample.) -/
theorem claim_C6_win_rate_percentage (st : EngineState) :
    (st.tradeHistory = [] → calculateWinRate st = 0) ∧
    (st.tradeHistory ≠ [] →
      calculateWinRate st
        = 100 * ((st.tradeHistory.countP (fun t => decide (0 < t.realizedPnl)) : ℚ)
            / (st.tradeHistory.length : ℚ))) := by
  constructor
  · intro h
    simp [calculateWinRate, h]
  · intro h
    have hlen : st.tradeHistory.length ≠ 0 := by simpa using h
    simp only [calculateWinRate, hlen, if_false]
    ring

/-- A single winning trade (positive realized PnL), for C6. -/
def tC6 : Trade :=
  { orderId := 0, symbol := "BTCUSDT", side := Side.Buy, price := 50000,
    qty := 1, fee := 30, realizedPnl := 1 }

/-- A user state whose trade history is that single winning trade. -/
def stC6 : EngineState := { initialState with tradeHistory := [tC6] }

/-- C6 counterexample: with one winning trade the computed win rate is 100,
not the claimed `wins / total = 1` — the source scales by 100. -/
theorem claim_C6_counterexample :
    calculateWinRate stC6 = 100 ∧
    ((stC6.tradeHistory.countP (fun t => decide (0 < t.realizedPnl)) : ℚ)
        / (stC6.tradeHistory.length : ℚ)) = 1 ∧
    calculateWinRate stC6 ≠
      ((stC6.tradeHistory.countP (fun t => decide (0 < t.realizedPnl)) : ℚ)
        / (stC6.tradeHistory.length : ℚ)) := by
  norm_num [calculateWinRate, stC6, tC6, initialState,
    List.countP_cons, List.countP_nil]

theorem claim_C6_witness :
    calculateWinRate initialState = 0 ∧
    calculateWinRate stC6
      = 100 * ((stC6.tradeHistory.countP (fun t => decide (0 < t.realizedPnl)) : ℚ)
          / (stC6.tradeHistory.length : ℚ)) :=
  ⟨(claim_C6_win_rate_percentage initialState).1 rfl,
   (claim_C6_win_rate_percentage stC6).2 (by simp [stC6])⟩

/-- Evaluation of the netting block when no position exists and the order is
not reduce-only: a fresh position is opened at the order price. -/
theorem nettingStep_open (st : EngineState) (o : Order)
    (hpos : st.positions = []) (hro : o.reduceOnly = false) :
    nettingStep st o =
      ({ st with
           positions := st.positions ++
             [{ positionId := st.nextId, symbol := "BTCUSDT", side := o.side,
                qty := o.qty, avgPrice := o.price, markPrice := st.currentPrice,
                leverage := o.leverage, unrealizedPnl := 0, realizedPnl := 0,
                marginUsed := 0, maintenanceMargin := 0,
                stopLoss := o.stopLoss, takeProfit := o.takeProfit }],
           nextId := st.nextId + 1 },
       some { positionId := st.nextId, symbol := "BTCUSDT", side := o.side,
              qty := o.qty, avgPrice := o.price, markPrice := st.currentPrice,
              leverage := o.leverage, unrealizedPnl := 0, realizedPnl := 0,
              marginUsed := 0, maintenanceMargin := 0,
              stopLoss := o.stopLoss, takeProfit := o.takeProfit }) := by
  unfold nettingStep
  rw [hpos, List.find?_nil]
  simp only
  rw [if_pos hro]

/-- C2 (amended): `createOrder` rejects a non-reduce-only order whose required
margin plus fee exceeds the available balance with `InsufficientBalance`
(throwing before any mutation), and a successfully admitted non-reduce-only
`Market` order that opens a fresh position from a consistent no-position state
leaves `availableBalance ≥ 0`.  (The claim's blanket `availableBalance ≥ 0`
for every admitted order is refuted separately: a fill that closes or flips
against an existing position can realize a loss that drives it negative.) -/
theorem claim_C2_admission_and_fresh_open (st : EngineState) (d : OrderData) :
    (d.reduceOnly = false →
     d.leverage ≤ maxLeverage →
     st.balance.availableBalance <
       d.qty * executionPrice st d / d.leverage +
       d.qty * executionPrice st d * feeRate d.orderType →
     createOrder st d = .error TradeError.insufficientBalance)
    ∧
    (∀ r : EngineState × Order, d.reduceOnly = false →
     d.orderType = OrderType.Market →
     st.positions = [] →
     st.balance.availableBalance = st.balance.USDT →
     createOrder st d = .ok r → 0 ≤ r.1.balance.availableBalance) := by
  constructor
  · intro hro hlev hlt
    unfold createOrder
    rw [if_neg (not_lt.mpr hlev), if_pos ⟨hro, hlt⟩]
  · intro r hro hM hpos hbal hr
    unfold createOrder at hr
    by_cases h1 : d.leverage > maxLeverage
    · rw [if_pos h1] at hr; cases hr
    · rw [if_neg h1] at hr
      by_cases h2 : d.reduceOnly = false ∧
          st.balance.availableBalance <
            d.qty * executionPrice st d / d.leverage +
            d.qty * executionPrice st d * feeRate d.orderType
      · rw [if_pos h2] at hr; cases hr
      · rw [if_neg h2, if_pos hM] at hr
        cases hr
        have hadm : d.qty * executionPrice st d / d.leverage +
            d.qty * executionPrice st d * feeRate d.orderType ≤ st.balance.USDT := by
          rw [← hbal]
          exact not_lt.mp (fun hlt => h2 ⟨hro, hlt⟩)
        have hro' : (fillStamp (mkOrder st d)).reduceOnly = false := by
          simp [fillStamp, mkOrder, hro]
        have hopen := nettingStep_open { st with nextId := st.nextId + 1 }
          (fillStamp (mkOrder st d)) (by simpa using hpos) hro'
        simp only [executeOrderAux, hopen]
        simp only [finishFill, hpos, List.nil_append, sumMargin, replaceBtc,
          List.map_cons, List.map_nil, List.sum_cons, List.sum_nil,
          fillStamp, mkOrder]
        simp only [executionPrice, hM, if_true]
        simp only [feeRate, hM, if_true]
        have : (0:ℚ) ≤ st.balance.USDT
            - (d.qty * st.currentPrice / d.leverage + 0)
            - d.qty * st.currentPrice * takerFee := by
          have h := hadm
          simp only [executionPrice, hM, if_true, feeRate] at h
          linarith
        exact this


/-- One pass of the mark/liquidation loop over a single position that does
not breach the threshold: the position is marked and nothing else happens. -/
theorem markAndCheckLoop_single_no_fire (bal : Balance) (p : Position)
    (ords : List Order) (hist : List Trade) (price : ℚ) (nid : Nat)
    (hnf : shouldLiquidate p.maintenanceMargin
        (bal.USDT + calculatePnl p price none) = false) :
    markAndCheckLoop
      { balance := bal, positions := [p], orders := ords, tradeHistory := hist,
        currentPrice := price, nextId := nid } 0
      = { balance := bal, positions := [markPos price p], orders := ords,
          tradeHistory := hist, currentPrice := price, nextId := nid } := by
  rw [markAndCheckLoop]
  rw [dif_pos (by norm_num)]
  simp only [List.get, List.set_cons_zero]
  have hcl : checkLiquidation
      { balance := bal, positions := [markPos price p], orders := ords,
        tradeHistory := hist, currentPrice := price, nextId := nid }
      (markPos price p)
      = { balance := bal, positions := [markPos price p], orders := ords,
          tradeHistory := hist, currentPrice := price, nextId := nid } := by
    unfold checkLiquidation
    rw [if_neg (by simp [markPos, hnf])]
  rw [hcl]
  rw [markAndCheckLoop]
  rw [dif_neg (by norm_num)]

/-- A full price tick over a single surviving position and a pending set in
which nothing triggers: mark the position, refresh the aggregate unrealized
PnL and `totalEquity`, leave everything else alone. -/
theorem updateCurrentPrice_single_no_fire (bal : Balance) (p : Position)
    (ords : List Order) (hist : List Trade) (oldPrice price : ℚ) (nid : Nat)
    (hnf : shouldLiquidate p.maintenanceMargin
        (bal.USDT + calculatePnl p price none) = false)
    (hq : ∀ o ∈ ords, ¬(o.status = OrderStatus.New ∧ shouldFill o price = true)) :
    updateCurrentPrice
      { balance := bal, positions := [p], orders := ords, tradeHistory := hist,
        currentPrice := oldPrice, nextId := nid } price
      = { balance := { bal with
                         unrealizedPnl := calculatePnl p price none,
                         totalEquity := bal.USDT + calculatePnl p price none },
          positions := [markPos price p], orders := ords, tradeHistory := hist,
          currentPrice := price, nextId := nid } := by
  unfold updateCurrentPrice checkPendingOrders
  simp only [updateAllPositionsPnL]
  rw [markAndCheckLoop_single_no_fire bal p ords hist price nid hnf]
  rw [checkPendingLoop_id _ 0 (by intro o ho; exact hq o ho)]
  simp [sumUnrealized, markPos]

/-- A Market Buy far beyond the initial balance, rejected at admission. -/
def dC2reject : OrderData :=
  { side := Side.Buy, orderType := OrderType.Market, qty := 1000, price := 0,
    leverage := 1, stopLoss := none, takeProfit := none, reduceOnly := false }

/-- The filled order returned for the opening buy `dC1buy`. -/
def oC1fill : Order :=
  { orderId := 0, symbol := "BTCUSDT", side := Side.Buy,
    orderType := OrderType.Market, qty := 1/100, price := 50000, leverage := 100,
    stopLoss := none, takeProfit := none, reduceOnly := false,
    status := OrderStatus.Filled, filledQty := 1/100, avgPrice := 50000, fee := 3/10 }

theorem stC1a_create_eval : createOrder initialState dC1buy = .ok (stC1a, oC1fill) := by
  norm_num [createOrder, executeOrderAux, nettingStep, finishFill,
    fillStamp, mkOrder, executionPrice, initialState, initialBalance, feeRate,
    takerFee, makerFee, maxLeverage, maintenanceMarginRate, sumMargin,
    replaceBtc, calculatePnl, dC1buy, stC1a, oC1fill]

theorem claim_C2_witness :
    createOrder initialState dC2reject = .error TradeError.insufficientBalance ∧
    0 ≤ stC1a.balance.availableBalance :=
  ⟨(claim_C2_admission_and_fresh_open initialState dC2reject).1 rfl
      (by norm_num [dC2reject, maxLeverage])
      (by norm_num [dC2reject, initialState, initialBalance, executionPrice,
        feeRate, takerFee]),
   (claim_C2_admission_and_fresh_open initialState dC1buy).2 (stC1a, oC1fill)
      rfl rfl rfl rfl stC1a_create_eval⟩

/-- The opening buy of the C2 counterexample trace: 1 BTC at 50000, 100x. -/
def dC2buy : OrderData :=
  { side := Side.Buy, orderType := OrderType.Market, qty := 1, price := 0,
    leverage := 100, stopLoss := none, takeProfit := none, reduceOnly := false }

/-- State after the opening buy: margin 500, fee 30. -/
def stC2a : EngineState :=
  { balance := { USDT := 9970, availableBalance := 9470, marginUsed := 500,
                 unrealizedPnl := 0, realizedPnl := 0, totalEquity := 10000 },
    positions := [{ positionId := 1, symbol := "BTCUSDT", side := Side.Buy,
                    qty := 1, avgPrice := 50000, markPrice := 50000,
                    leverage := 100, unrealizedPnl := 0, realizedPnl := 0,
                    marginUsed := 500, maintenanceMargin := 5/2,
                    stopLoss := none, takeProfit := none }],
    orders := [],
    tradeHistory := [{ orderId := 0, symbol := "BTCUSDT", side := Side.Buy,
                       price := 50000, qty := 1, fee := 30, realizedPnl := 0 }],
    currentPrice := 50000, nextId := 2 }

theorem stC2a_eval : stepOrder initialState dC2buy = stC2a := by
  norm_num [stepOrder, createOrder, executeOrderAux, nettingStep, finishFill,
    fillStamp, mkOrder, executionPrice, initialState, initialBalance, feeRate,
    takerFee, makerFee, maxLeverage, maintenanceMarginRate, sumMargin,
    replaceBtc, calculatePnl, dC2buy, stC2a]

/-- State after the price crashes to 1000: the position is marked with an
unrealized loss of 49000; equity is negative so no liquidation fires. -/
def stC2b : EngineState :=
  { balance := { USDT := 9970, availableBalance := 9470, marginUsed := 500,
                 unrealizedPnl := -49000, realizedPnl := 0, totalEquity := -39030 },
    positions := [{ positionId := 1, symbol := "BTCUSDT", side := Side.Buy,
                    qty := 1, avgPrice := 50000, markPrice := 1000,
                    leverage := 100, unrealizedPnl := -49000, realizedPnl := 0,
                    marginUsed := 500, maintenanceMargin := 5/2,
                    stopLoss := none, takeProfit := none }],
    orders := [],
    tradeHistory := [{ orderId := 0, symbol := "BTCUSDT", side := Side.Buy,
                       price := 50000, qty := 1, fee := 30, realizedPnl := 0 }],
    currentPrice := 1000, nextId := 2 }

theorem stC2b_eval : updateCurrentPrice stC2a 1000 = stC2b := by
  simp only [stC2a]
  rw [updateCurrentPrice_single_no_fire _ _ _ _ _ _ _
    (by norm_num [shouldLiquidate, calculatePnl, liquidationThreshold])
    (by simp)]
  norm_num [stC2b, markPos, calculatePnl]

/-- The flipping sell of the C2 counterexample trace: 2 BTC Market at the
crashed price. -/
def dC2sell : OrderData :=
  { side := Side.Sell, orderType := OrderType.Market, qty := 2, price := 0,
    leverage := 100, stopLoss := none, takeProfit := none, reduceOnly := false }

/-- The filled flip order returned for `dC2sell`. -/
def oC2sell : Order :=
  { orderId := 2, symbol := "BTCUSDT", side := Side.Sell,
    orderType := OrderType.Market, qty := 2, price := 1000, leverage := 100,
    stopLoss := none, takeProfit := none, reduceOnly := false,
    status := OrderStatus.Filled, filledQty := 2, avgPrice := 1000, fee := 6/5 }

/-- State after the admitted flip: the realized loss of 49000 drives the cash
balance to -39031.2 and the available balance to -39041.2. -/
def stC2c : EngineState :=
  { balance := { USDT := -195156/5, availableBalance := -195206/5, marginUsed := 10,
                 unrealizedPnl := -49000, realizedPnl := -49000, totalEquity := -39030 },
    positions := [{ positionId := 1, symbol := "BTCUSDT", side := Side.Sell,
                    qty := 1, avgPrice := 1000, markPrice := 1000,
                    leverage := 100, unrealizedPnl := 0, realizedPnl := 0,
                    marginUsed := 10, maintenanceMargin := 1/20,
                    stopLoss := none, takeProfit := none }],
    orders := [],
    tradeHistory := [{ orderId := 0, symbol := "BTCUSDT", side := Side.Buy,
                       price := 50000, qty := 1, fee := 30, realizedPnl := 0 },
                     { orderId := 2, symbol := "BTCUSDT", side := Side.Sell,
                       price := 1000, qty := 2, fee := 6/5, realizedPnl := 0 }],
    currentPrice := 1000, nextId := 3 }

theorem stC2c_eval : createOrder stC2b dC2sell = .ok (stC2c, oC2sell) := by
  norm_num [createOrder, executeOrderAux, nettingStep, finishFill,
    fillStamp, mkOrder, executionPrice, feeRate,
    takerFee, makerFee, maxLeverage, maintenanceMarginRate, sumMargin,
    replaceBtc, calculatePnl, dC2sell, stC2b, stC2c, oC2sell]

/-- C2 counterexample: from the initial balance, buy 1 BTC at 50000 (100x),
let the feed price crash to 1000 (the mark leaves negative equity, so no
liquidation fires), then submit a non-reduce-only Market Sell of 2 BTC.  Its
own margin-plus-fee check passes (9470 ≥ 21.2) so the order is admitted — but
the fill realizes the 49000 loss, leaving `availableBalance = -39041.2 < 0`. -/
theorem claim_C2_counterexample :
    updateCurrentPrice (stepOrder initialState dC2buy) 1000 = stC2b ∧
    dC2sell.reduceOnly = false ∧
    createOrder stC2b dC2sell = .ok (stC2c, oC2sell) ∧
    stC2c.balance.availableBalance < 0 := by
  refine ⟨by rw [stC2a_eval, stC2b_eval], rfl, stC2c_eval, by norm_num [stC2c]⟩

/-- A price tick with no open positions only refreshes the (zero) aggregate
unrealized PnL and `totalEquity` before the pending-order scan. -/
theorem updateAllPositionsPnL_no_positions (bal : Balance) (ords : List Order)
    (hist : List Trade) (price : ℚ) (nid : Nat) :
    updateAllPositionsPnL
      { balance := bal, positions := [], orders := ords, tradeHistory := hist,
        currentPrice := price, nextId := nid }
      = { balance := { bal with unrealizedPnl := 0, totalEquity := bal.USDT },
          positions := [], orders := ords, tradeHistory := hist,
          currentPrice := price, nextId := nid } := by
  simp only [updateAllPositionsPnL]
  rw [markAndCheckLoop]
  rw [dif_neg (by norm_num)]
  simp [sumUnrealized]

/-- C4 (amended): after `updateCurrentPrice` on a tick in which no pending
limit order triggers, `totalEquity = cashBalance + Σ unrealizedPnl` over the
open positions.  (When a pending order does trigger, `checkPendingOrders`
runs after the equity refresh and the fill's cash movements leave
`totalEquity` stale — refuted separately.) -/
theorem claim_C4_totalEquity_after_tick (st : EngineState) (price : ℚ)
    (hq : ∀ o ∈ st.orders, ¬(o.status = OrderStatus.New ∧ shouldFill o price = true)) :
    (updateCurrentPrice st price).balance.totalEquity
      = (updateCurrentPrice st price).balance.USDT
        + sumUnrealized (updateCurrentPrice st price).positions := by
  have hfr := updateAllPositionsPnL_frame { st with currentPrice := price }
  have hid : checkPendingLoop (updateAllPositionsPnL { st with currentPrice := price }) 0
      = updateAllPositionsPnL { st with currentPrice := price } := by
    apply checkPendingLoop_id
    intro o ho
    rw [hfr.2]
    rw [hfr.1] at ho
    exact hq o ho
  unfold updateCurrentPrice checkPendingOrders
  rw [hid]
  exact updateAllPositionsPnL_equity _

theorem claim_C4_witness :
    (updateCurrentPrice stC2a 777).balance.totalEquity
      = (updateCurrentPrice stC2a 777).balance.USDT
        + sumUnrealized (updateCurrentPrice stC2a 777).positions :=
  claim_C4_totalEquity_after_tick stC2a 777 (by simp [stC2a])

/-- The resting Limit Buy of the C4 counterexample trace. -/
def dC4limit : OrderData :=
  { side := Side.Buy, orderType := OrderType.Limit, qty := 1/100, price := 50000,
    leverage := 100, stopLoss := none, takeProfit := none, reduceOnly := false }

/-- The pending order created for `dC4limit`. -/
def oC4 : Order :=
  { orderId := 0, symbol := "BTCUSDT", side := Side.Buy,
    orderType := OrderType.Limit, qty := 1/100, price := 50000, leverage := 100,
    stopLoss := none, takeProfit := none, reduceOnly := false,
    status := OrderStatus.New, filledQty := 0, avgPrice := 0, fee := 0 }

/-- Initial state plus the resting limit order. -/
def stC4a : EngineState := { initialState with orders := [oC4], nextId := 1 }

theorem stC4a_eval : stepOrder initialState dC4limit = stC4a := by
  norm_num [stepOrder, createOrder, mkOrder, executionPrice, feeRate, makerFee,
    takerFee, maxLeverage, initialState, initialBalance, dC4limit, stC4a, oC4]

/-- The state after the tick to 49000 fills the resting order: the position
opens and the maker fee leaves the cash balance, but `totalEquity` still
holds the value computed before the fill. -/
def stC4b : EngineState :=
  { balance := { USDT := 99999/10, availableBalance := 99949/10, marginUsed := 5,
                 unrealizedPnl := 0, realizedPnl := 0, totalEquity := 10000 },
    positions := [{ positionId := 1, symbol := "BTCUSDT", side := Side.Buy,
                    qty := 1/100, avgPrice := 50000, markPrice := 49000,
                    leverage := 100, unrealizedPnl := 0, realizedPnl := 0,
                    marginUsed := 5, maintenanceMargin := 1/40,
                    stopLoss := none, takeProfit := none }],
    orders := [],
    tradeHistory := [{ orderId := 0, symbol := "BTCUSDT", side := Side.Buy,
                       price := 50000, qty := 1/100, fee := 1/10, realizedPnl := 0 }],
    currentPrice := 49000, nextId := 2 }

theorem stC4b_eval : updateCurrentPrice stC4a 49000 = stC4b := by
  simp only [stC4a, initialState, initialBalance]
  unfold updateCurrentPrice checkPendingOrders
  rw [updateAllPositionsPnL_no_positions]
  rw [checkPendingLoop]
  rw [dif_pos (by norm_num)]
  simp only [List.get]
  rw [if_pos ⟨rfl, by norm_num [shouldFill, oC4]⟩]
  norm_num [executeOrderAux, nettingStep, finishFill, fillStamp, feeRate,
    makerFee, takerFee, maintenanceMarginRate, sumMargin, replaceBtc,
    calculatePnl, oC4, List.eraseIdx]
  rw [checkPendingLoop]
  rw [dif_neg (by norm_num)]
  norm_num [stC4b]

/-- C4 counterexample: rest a Limit Buy at 50000 from the initial state, then
tick the price to 49000.  The order triggers and fills after the equity
refresh, so afterwards `totalEquity` (10000) differs from
`cashBalance + Σ unrealizedPnl` (9999.9): the invariant does not hold after
this `updateCurrentPrice`. -/
theorem claim_C4_counterexample :
    updateCurrentPrice (stepOrder initialState dC4limit) 49000 = stC4b ∧
    stC4b.balance.totalEquity ≠ stC4b.balance.USDT + sumUnrealized stC4b.positions := by
  refine ⟨by rw [stC4a_eval, stC4b_eval], ?_⟩
  norm_num [stC4b, sumUnrealized]

/-- The second resting Limit Buy of the C8 failing input (id 1). -/
def oC8b : Order :=
  { orderId := 1, symbol := "BTCUSDT", side := Side.Buy,
    orderType := OrderType.Limit, qty := 1/100, price := 50000, leverage := 100,
    stopLoss := none, takeProfit := none, reduceOnly := false,
    status := OrderStatus.New, filledQty := 0, avgPrice := 0, fee := 0 }

/-- Initial state plus two resting Limit Buys at 50000. -/
def stC8a : EngineState := { initialState with orders := [oC4, oC8b], nextId := 2 }

theorem stC8a_eval : stepOrder stC4a dC4limit = stC8a := by
  norm_num [stepOrder, createOrder, mkOrder, executionPrice, feeRate, makerFee,
    takerFee, maxLeverage, initialState, initialBalance, dC4limit, stC4a, stC8a,
    oC4, oC8b]

/-- The state after the tick to 49000: only the first of the two triggered
orders fills; the second is skipped by the splice-during-iteration and stays
pending with status `New`. -/
def stC8b : EngineState :=
  { balance := { USDT := 99999/10, availableBalance := 99949/10, marginUsed := 5,
                 unrealizedPnl := 0, realizedPnl := 0, totalEquity := 10000 },
    positions := [{ positionId := 2, symbol := "BTCUSDT", side := Side.Buy,
                    qty := 1/100, avgPrice := 50000, markPrice := 49000,
                    leverage := 100, unrealizedPnl := 0, realizedPnl := 0,
                    marginUsed := 5, maintenanceMargin := 1/40,
                    stopLoss := none, takeProfit := none }],
    orders := [oC8b],
    tradeHistory := [{ orderId := 0, symbol := "BTCUSDT", side := Side.Buy,
                       price := 50000, qty := 1/100, fee := 1/10, realizedPnl := 0 }],
    currentPrice := 49000, nextId := 3 }

theorem stC8b_eval : updateCurrentPrice stC8a 49000 = stC8b := by
  simp only [stC8a, initialState, initialBalance]
  unfold updateCurrentPrice checkPendingOrders
  rw [updateAllPositionsPnL_no_positions]
  rw [checkPendingLoop]
  rw [dif_pos (by norm_num)]
  simp only [List.get]
  rw [if_pos ⟨rfl, by norm_num [shouldFill, oC4]⟩]
  norm_num [executeOrderAux, nettingStep, finishFill, fillStamp, feeRate,
    makerFee, takerFee, maintenanceMarginRate, sumMargin, replaceBtc,
    calculatePnl, oC4, List.eraseIdx]
  rw [checkPendingLoop]
  rw [dif_neg (by norm_num)]
  norm_num [stC8b]

/-- C8: with two pending Limit Buys at 50000 and a tick to 49000, both
trigger conditions hold, yet after the pass only the first order has filled:
the splice during `for...of` iteration slides the second order under the
cursor, so it is skipped and remains pending with status `New` even though
`shouldFill` holds for it at the new price. -/
theorem claim_C8_skipped_triggered_order :
    stepOrder (stepOrder initialState dC4limit) dC4limit = stC8a ∧
    updateCurrentPrice stC8a 49000 = stC8b ∧
    stC8b.orders = [oC8b] ∧
    oC8b.status = OrderStatus.New ∧
    shouldFill oC8b stC8b.currentPrice = true := by
  refine ⟨by rw [stC4a_eval, stC8a_eval], stC8b_eval, rfl, rfl, ?_⟩
  norm_num [shouldFill, oC8b, stC8b]

end BitApi
